import Mathlib

/-!
Shallow embedding of the smart-fetch request-orchestration library
(TypeScript sources under `src/`), written to check the natural-language
specification against the code.

Conventions used throughout:
* JavaScript `Map<string, V>` objects are modelled as association lists
  `List (String × V)` with `mapSet` / `mapErase` / `List.lookup`
  mirroring `Map.set` / `Map.delete` / `Map.get`.
* Optional JS fields (`ttl?`, `method?`, ...) are `Option` fields; JS
  falsiness of a numeric field (`!entry.ttl`) is modelled explicitly
  (absent or zero).
* Parsed JSON payloads are represented by their serialized `String`
  form; request bodies are `Option String` (a present body is assumed
  truthy, i.e. not `""` or `0`).
* Times are `Nat` milliseconds; `Date.now()` is threaded explicitly.
-/

/-- HTTP methods, from `src/types/index.ts` (`HttpMethod`). -/
inductive HttpMethod where
  | GET | POST | PUT | DELETE | PATCH | HEAD | OPTIONS
deriving DecidableEq, Repr

/-- String form of a method, as it appears in cache keys. -/
def HttpMethod.toStr : HttpMethod → String
  | .GET => "GET" | .POST => "POST" | .PUT => "PUT" | .DELETE => "DELETE"
  | .PATCH => "PATCH" | .HEAD => "HEAD" | .OPTIONS => "OPTIONS"

/-- `Map.set`: replace the binding for `k` in place, else append it. -/
def mapSet {α : Type} (k : String) (v : α) : List (String × α) → List (String × α)
  | [] => [(k, v)]
  | (k', v') :: rest => if k' = k then (k, v) :: rest else (k', v') :: mapSet k v rest

/-- `Map.delete`: remove the (unique) binding for `k`. -/
def mapErase {α : Type} (k : String) : List (String × α) → List (String × α)
  | [] => []
  | (k', v') :: rest => if k' = k then rest else (k', v') :: mapErase k rest

/-- Cache entry, from `src/types/index.ts` (`CacheEntry`): payload,
store time, optional TTL and the key it was stored under.  `ttl = none`
models an absent `ttl` field and `ttl = some 0` a stored zero (both are
falsy in JS). -/
structure CacheEntry where
  data : String
  timestamp : Nat
  ttl : Option Nat
  key : String
deriving DecidableEq, Repr

namespace MemoryCacheAdapter

/-- `MemoryCacheAdapter.isExpired` (src/errors/index.ts lines 136-139):
`if (!entry.ttl) return false; return Date.now() - entry.timestamp > entry.ttl`.
JS subtraction may be negative; `now - timestamp > ttl` is false then,
which coincides with truncated `Nat` subtraction because `ttl ≥ 0`. -/
def isExpired (now : Nat) (entry : CacheEntry) : Bool :=
  match entry.ttl with
  | none => false
  | some t => if t = 0 then false else decide (now - entry.timestamp > t)

/-- `MemoryCacheAdapter.get` (src/errors/index.ts lines 108-118): look
the key up; on a hit whose TTL has elapsed, delete the entry and report
absent; otherwise return the entry.  Returns the result together with
the store after the read. -/
def get (now : Nat) (key : String) (cache : List (String × CacheEntry)) :
    Option CacheEntry × List (String × CacheEntry) :=
  match cache.lookup key with
  | none => (none, cache)
  | some entry =>
    if isExpired now entry then (none, mapErase key cache)
    else (some entry, cache)

/-- `MemoryCacheAdapter.set` (src/errors/index.ts lines 120-122). -/
def set (key : String) (value : CacheEntry) (cache : List (String × CacheEntry)) :
    List (String × CacheEntry) :=
  mapSet key value cache

/-- `MemoryCacheAdapter.has` (src/errors/index.ts lines 132-134):
`this.cache.has(key)` — no TTL check. -/
def has (key : String) (cache : List (String × CacheEntry)) : Bool :=
  (cache.lookup key).isSome

end MemoryCacheAdapter

/-- Key prefixing used by `LocalStorageCacheAdapter`
(src/errors/index.ts line 145, default prefix string). -/
def lsKey (key : String) : String := "smart-fetch-cache:" ++ key

namespace LocalStorageCacheAdapter

/-- The browser key-value store holding JSON-serialized entries.  The
`JSON.parse ∘ JSON.stringify` round trip is modelled as the identity on
well-formed entries, so the store maps prefixed keys to entries. -/
abbrev Store := List (String × CacheEntry)

/-- `LocalStorageCacheAdapter.isExpired` (src/errors/index.ts lines
195-198), identical to the memory adapter's. -/
def isExpired (now : Nat) (entry : CacheEntry) : Bool :=
  match entry.ttl with
  | none => false
  | some t => if t = 0 then false else decide (now - entry.timestamp > t)

/-- `LocalStorageCacheAdapter.get` (src/errors/index.ts lines 149-165):
read `prefix + key`, delete and report absent when expired. -/
def get (now : Nat) (key : String) (store : Store) : Option CacheEntry × Store :=
  match store.lookup (lsKey key) with
  | none => (none, store)
  | some entry =>
    if isExpired now entry then (none, mapErase (lsKey key) store)
    else (some entry, store)

/-- `LocalStorageCacheAdapter.set` (src/errors/index.ts lines 167-176). -/
def set (key : String) (value : CacheEntry) (store : Store) : Store :=
  mapSet (lsKey key) value store

/-- `LocalStorageCacheAdapter.has` (src/errors/index.ts lines 191-193):
`localStorage.getItem(this.prefix + key) !== null` — no TTL check. -/
def has (key : String) (store : Store) : Bool :=
  (store.lookup (lsKey key)).isSome

end LocalStorageCacheAdapter

/-- Cache strategy, from `src/types/index.ts` (`CacheStrategy`). -/
inductive CacheStrategy where
  | memory | localStorage | indexedDB | none
deriving DecidableEq, Repr

/-- Per-request cache configuration, from `src/types/index.ts`
(`CacheConfig`; the `invalidateOn` field is unused by the orchestrator
and omitted). -/
structure CacheConfig where
  strategy : CacheStrategy
  ttl : Option Nat := Option.none
  key : Option String := Option.none

/-- The `cache?: CacheConfig | boolean` field: absent, boolean flag, or
a full configuration. -/
inductive CacheOpt where
  | unset
  | flag (b : Bool)
  | conf (c : CacheConfig)

/-- Error kinds of the `SmartFetchError` class hierarchy in
`src/errors/index.ts`, used when a retry predicate inspects a caught
error. -/
inductive ErrKind where
  | smartFetchE | networkE | timeoutE | abortE | validationE | rateLimitE
deriving DecidableEq, Repr

/-- The shape of a caught error as seen by `shouldRetry`
(src/core/SmartFetch.ts lines 431-448): either a raw JS `Error` from
the fetch primitive (with its `name` and `message`), or a thrown
`SmartFetchError` with its kind, message, code and the status of its
optional attached response.  The error's `config` back-reference is
dropped here (it would make the type non-positive under retry
predicates); no retry decision in the source reads it. -/
inductive CaughtShape where
  | raw (name : String) (msg : String)
  | sfe (kind : ErrKind) (msg : String) (code : Option String) (respStatus : Option Nat)

/-- Retry configuration, from `src/types/index.ts` (`RetryConfig`). -/
structure RetryConfig where
  maxRetries : Nat
  delay : Nat
  maxDelay : Option Nat := Option.none
  backoff : Option Nat := Option.none
  retryOn : Option (List Nat) := Option.none
  retryCondition : Option (CaughtShape → Bool) := Option.none

/-- The `retry?: RetryConfig | boolean` field. -/
inductive RetryOpt where
  | unset
  | flag (b : Bool)
  | conf (c : RetryConfig)

/-- Rate limit configuration, from `src/types/index.ts`
(`RateLimitConfig`). -/
structure RateLimitConfig where
  maxRequests : Nat
  perMilliseconds : Nat
  queueRequests : Option Bool := Option.none
deriving Repr

/-- Request configuration, from `src/types/index.ts` (`RequestConfig`).
Fields irrelevant to the verified claims are omitted: `timeout`,
`signal`, progress callbacks, `credentials`, `mode`, `priority` and
`metadata` (they feed only the transport call, which is an oracle
here).  Query parameter values are modelled as strings (after the
source's `String(value)` conversion), and a present `body` stands for
its JSON-serialized form. -/
structure RequestConfig where
  url : String
  method : Option HttpMethod := Option.none
  headers : List (String × String) := []
  body : Option String := Option.none
  params : Option (List (String × String)) := Option.none
  cache : CacheOpt := CacheOpt.unset
  retry : RetryOpt := RetryOpt.unset
  rateLimit : Option RateLimitConfig := Option.none
  transformRequest : Option (String → String) := Option.none
  transformResponse : Option (String → String) := Option.none
  validateResponse : Option (String → Except String String) := Option.none
  deduplicate : Option Bool := Option.none
  offlineQueueable : Option Bool := Option.none

/-- `JSON.stringify` on a record of string-valued parameters, in
property order: `{"k":"v",...}`. -/
def jsonStringifyRecord (ps : List (String × String)) : String :=
  "\x7b" ++ String.intercalate ","
    (ps.map (fun p => "\"" ++ p.1 ++ "\":\"" ++ p.2 ++ "\"")) ++ "\x7d"

/-- `generateCacheKey` (src/utils/index.ts lines 64-77): join method,
url, `JSON.stringify(params)` when params are present, and
`JSON.stringify(body)` when a (truthy) body is present and the method
is not `GET`, with `"|"`. -/
def generateCacheKey (config : RequestConfig) : String :=
  let method := config.method.getD .GET
  let parts := [method.toStr, config.url]
  let parts := parts ++ (match config.params with
    | Option.none => []
    | some ps => [jsonStringifyRecord ps])
  let parts := parts ++ (match config.body with
    | Option.none => []
    | some b => if method = .GET then [] else [b])
  String.intercalate "|" parts

/-- Characters allowed after the first letter of a URL scheme in the
`isAbsoluteURL` regex `[a-z\d+\-.]` (case-insensitive). -/
def schemeChar (c : Char) : Bool :=
  c.isAlpha || c.isDigit || c = '+' || c = '-' || c = '.'

/-- Does the character list start with `//`? -/
def startsDoubleSlash : List Char → Bool
  | '/' :: '/' :: _ => true
  | _ => false

/-- Helper for `isAbsoluteURL`: after the leading letter, consume
scheme characters up to `:`, then require `//`. -/
def schemeTail : List Char → Bool
  | [] => false
  | ':' :: rest => startsDoubleSlash rest
  | c :: rest => schemeChar c && schemeTail rest

/-- `isAbsoluteURL` (src/utils/index.ts lines 28-30): the regex
`/^([a-z][a-z\d+\-.]*:)?\/\//i` — an optional scheme followed by
`//`. -/
def isAbsoluteURL (url : String) : Bool :=
  startsDoubleSlash url.toList ||
  (match url.toList with
   | [] => false
   | c :: rest => c.isAlpha && schemeTail rest)

/-- Drop trailing `/` characters (`baseURL.replace(/\/+$/, '')`). -/
def dropTrailingSlashes (s : String) : String :=
  String.mk (s.toList.reverse.dropWhile (· = '/')).reverse

/-- Drop leading `/` characters (`relativeURL.replace(/^\/+/, '')`). -/
def dropLeadingSlashes (s : String) : String :=
  String.mk (s.toList.dropWhile (· = '/'))

/-- `combineURLs` (src/utils/index.ts lines 32-36). -/
def combineURLs (baseURL relativeURL : String) : String :=
  if relativeURL = "" then baseURL
  else dropTrailingSlashes baseURL ++ "/" ++ dropLeadingSlashes relativeURL

/-- `URLSearchParams(...).toString()` over string-valued parameters:
`k=v` pairs joined by `&`.  Percent-encoding is omitted; the model is
faithful for values without reserved characters (all inputs used in
this development).  The source's filtering of `null`/`undefined`
values does not arise for string values. -/
def serializeQuery (ps : List (String × String)) : String :=
  String.intercalate "&" (ps.map (fun p => p.1 ++ "=" ++ p.2))

/-- `buildURL` (src/utils/index.ts lines 3-26): resolve against the
base URL unless absolute, then append the serialized query when it is
non-empty, with `?` or `&` depending on whether the URL already
contains `?`. -/
def buildURL (baseURL : Option String) (url : String)
    (params : Option (List (String × String))) : String :=
  let fullURL := match baseURL with
    | Option.none => url
    | some b => if isAbsoluteURL url then url else combineURLs b url
  match params with
  | Option.none => fullURL
  | some ps =>
    let queryString := serializeQuery ps
    if queryString = "" then fullURL
    else fullURL ++ (if fullURL.toList.contains '?' then "&" else "?") ++ queryString

/-- Is the first list a prefix of the second? (Boolean helper.) -/
def isPrefixList : List Char → List Char → Bool
  | [], _ => true
  | _ :: _, [] => false
  | a :: as, b :: bs => a = b && isPrefixList as bs

/-- `String.prototype.includes`: does `hay` contain `needle` as a
contiguous substring? -/
def containsSub (needle : List Char) : List Char → Bool
  | [] => needle.isEmpty
  | b :: bs => isPrefixList needle (b :: bs) || containsSub needle bs

/-- The `SmartFetchError` class hierarchy (src/errors/index.ts lines
3-81).  Every error carries its message and the originating request
config; the base class additionally carries a `code` and the status of
an optionally attached response (never attached by the orchestrator's
own throw sites, hence `Option Nat`).  Subclass-specific extras that no
claim reads (`validationErrors`, GraphQL error lists) are omitted;
`RateLimitError.retryAfter` is kept. -/
inductive SFError where
  | smartFetchErr (msg : String) (config : RequestConfig) (code : Option String)
      (respStatus : Option Nat)
  | networkErr (msg : String) (config : RequestConfig)
  | timeoutErr (msg : String) (config : RequestConfig)
  | abortErr (msg : String) (config : RequestConfig)
  | validationErr (msg : String) (config : RequestConfig)
  | rateLimitErr (msg : String) (config : RequestConfig) (retryAfter : Nat)

/-- The JS `name` property of each error class. -/
def SFError.nameOf : SFError → String
  | .smartFetchErr .. => "SmartFetchError"
  | .networkErr .. => "NetworkError"
  | .timeoutErr .. => "TimeoutError"
  | .abortErr .. => "AbortError"
  | .validationErr .. => "ValidationError"
  | .rateLimitErr .. => "RateLimitError"

/-- The `message` property. -/
def SFError.msgOf : SFError → String
  | .smartFetchErr m .. => m
  | .networkErr m _ => m
  | .timeoutErr m _ => m
  | .abortErr m _ => m
  | .validationErr m _ => m
  | .rateLimitErr m _ _ => m

/-- The config-free shape of an error, as consumed by retry
predicates. -/
def SFError.shape : SFError → CaughtShape
  | .smartFetchErr m _ c r => .sfe .smartFetchE m c r
  | .networkErr m _ => .sfe .networkE m (some "NETWORK_ERROR") Option.none
  | .timeoutErr m _ => .sfe .timeoutE m (some "TIMEOUT_ERROR") Option.none
  | .abortErr m _ => .sfe .abortE m (some "ABORT_ERROR") Option.none
  | .validationErr m _ => .sfe .validationE m (some "VALIDATION_ERROR") Option.none
  | .rateLimitErr m _ _ => .sfe .rateLimitE m (some "RATE_LIMIT_ERROR") Option.none

/-- A value caught by the `catch` block of `executeRequest`
(src/core/SmartFetch.ts line 251): either a raw JS `Error` rejected by
the fetch primitive, or a `SmartFetchError` thrown inside the `try`. -/
inductive Caught where
  | raw (name : String) (msg : String)
  | sfe (e : SFError)

/-- `error.name` of a caught value. -/
def Caught.nameOf : Caught → String
  | .raw n _ => n
  | .sfe e => e.nameOf

/-- `error.message` of a caught value. -/
def Caught.msgOf : Caught → String
  | .raw _ m => m
  | .sfe e => e.msgOf

/-- Config-free shape of a caught value. -/
def Caught.shape : Caught → CaughtShape
  | .raw n m => .raw n m
  | .sfe e => e.shape

/-- `error?.response?.status` on a shaped error. -/
def CaughtShape.respStatus : CaughtShape → Option Nat
  | .raw _ _ => Option.none
  | .sfe _ _ _ r => r

/-- Response envelope, from `src/types/index.ts`
(`SmartFetchResponse`). -/
structure SmartFetchResponse where
  data : String
  status : Nat
  statusText : String
  headers : List (String × String)
  config : RequestConfig
  cached : Option Bool := Option.none
  retryCount : Option Nat := Option.none

/-- The three storage backends owned by `CacheManager`
(src/errors/index.ts lines 285-294).  The IndexedDB backend is keyed by
each entry's `key` field (object-store `keyPath: 'key'`). -/
structure CacheManagerState where
  memory : List (String × CacheEntry) := []
  localS : LocalStorageCacheAdapter.Store := []
  idb : List (String × CacheEntry) := []

/-- `CacheManager.set` (src/errors/index.ts lines 307-311): dispatch on
strategy; strategy `none` has no adapter and is a no-op. -/
def CacheManager.set (strategy : CacheStrategy) (key : String) (value : CacheEntry)
    (cs : CacheManagerState) : CacheManagerState :=
  match strategy with
  | .memory => { cs with memory := MemoryCacheAdapter.set key value cs.memory }
  | .localStorage => { cs with localS := LocalStorageCacheAdapter.set key value cs.localS }
  | .indexedDB => { cs with idb := mapSet value.key value cs.idb }
  | .none => cs

/-- `SmartFetch.cacheResponse` (src/core/SmartFetch.ts lines 358-374):
skip when the cache policy is falsy (absent or `false`); a bare `true`
means `{strategy: 'memory'}`; store the payload with the current time,
the configured TTL, under the override key if given, else the
fingerprint. -/
def cacheResponse (config : RequestConfig) (cacheKey : String)
    (resp : SmartFetchResponse) (now : Nat) (cs : CacheManagerState) : CacheManagerState :=
  match config.cache with
  | .unset => cs
  | .flag false => cs
  | .flag true =>
    CacheManager.set .memory cacheKey ⟨resp.data, now, Option.none, cacheKey⟩ cs
  | .conf cc =>
    let k := cc.key.getD cacheKey
    CacheManager.set cc.strategy k ⟨resp.data, now, cc.ttl, k⟩ cs

/-- Outcome of one invocation of the transport primitive (`fetch`):
either a response (status, status text, headers, and the payload the
content-type-appropriate reader yields — payload parsing is assumed to
succeed), or a rejection with a raw JS `Error` carrying a `name` and a
`message`. -/
inductive TransportOutcome where
  | ok (status : Nat) (statusText : String) (headers : List (String × String))
      (payload : String)
  | raw (name : String) (msg : String)

/-- The external world of one logical request: the outcome of the i-th
transport invocation (0-based, counted across retries), the
instance-level `validateStatus` predicate (default
`200 ≤ s < 300`), and the clock used for cache writes. -/
structure Env where
  transport : Nat → TransportOutcome
  validateStatus : Nat → Bool
  now : Nat

/-- Mutable state threaded through `executeRequest`: how many transport
invocations have happened, and the cache backends. -/
structure ExecState where
  fetchCount : Nat := 0
  cache : CacheManagerState := {}

/-- `SmartFetch.getRetryConfig` (src/core/SmartFetch.ts lines 420-429).
The instance-level fallback `this.config.retry` is folded into the
request's `retry` field by the caller (`mergeRequestConfig`), so only
the request-level field appears here.  A bare `true` maps to the fixed
default of 3 retries, 1000ms delay, backoff 2. -/
def getRetryConfig (config : RequestConfig) : Option RetryConfig :=
  match config.retry with
  | .unset => Option.none
  | .flag b =>
    if b then some { maxRetries := 3, delay := 1000, backoff := some 2 }
    else Option.none
  | .conf rc => some rc

/-- `SmartFetch.shouldRetry` (src/core/SmartFetch.ts lines 431-448):
below the maximum, then a custom predicate if present, else an explicit
status allow-list if present (with JS-truthy status check), else the
default — the error is a `NetworkError`/`TimeoutError` instance or its
attached response status is ≥ 500 (`undefined >= 500` is false). -/
def shouldRetryBody (shape : CaughtShape) (rc : RetryConfig) : Bool :=
  match rc.retryCondition with
  | some cond => cond shape
  | Option.none =>
    match rc.retryOn with
    | some statuses =>
      (match shape.respStatus with
       | some s => if s ≠ 0 then statuses.contains s else false
       | Option.none => false)
    | Option.none =>
      (match shape with
       | .sfe .networkE .. => true
       | .sfe .timeoutE .. => true
       | _ =>
         (match shape.respStatus with
          | some s => decide (s ≥ 500)
          | Option.none => false))

/-- The guard of `shouldRetry` (src/core/SmartFetch.ts line 432): never
retry at or past the maximum; otherwise evaluate the policy body. -/
def shouldRetry (shape : CaughtShape) (retryCount : Nat) (rc : RetryConfig) : Bool :=
  if retryCount ≥ rc.maxRetries then false
  else shouldRetryBody shape rc

/-- `SmartFetch.calculateRetryDelay` (src/core/SmartFetch.ts lines
450-454): `delay × backoff^n`, with backoff defaulting to 2 when the
field is absent or 0 (JS `config.backoff || 2`), clamped to `maxDelay`
when that is present and non-zero (JS `config.maxDelay ? ... : ...`). -/
def calculateRetryDelay (retryCount : Nat) (rc : RetryConfig) : Nat :=
  let backoff := match rc.backoff with
    | some b => if b = 0 then 2 else b
    | Option.none => 2
  let delay := rc.delay * backoff ^ retryCount
  match rc.maxDelay with
  | some m => if m = 0 then delay else min delay m
  | Option.none => delay

/-- `config.transformResponse` application
(src/core/SmartFetch.ts lines 225-227). -/
def transformedPayload (config : RequestConfig) (payload : String) : String :=
  match config.transformResponse with
  | some f => f payload
  | Option.none => payload

/-- Response transform followed by schema validation
(src/core/SmartFetch.ts lines 224-236): `zod`'s `parse` either returns
the (possibly transformed) payload or throws. -/
def validatedPayload (config : RequestConfig) (payload : String) : Except String String :=
  match config.validateResponse with
  | some v => v (transformedPayload config payload)
  | Option.none => Except.ok (transformedPayload config payload)

/-- The `try` block of one attempt of `SmartFetch.executeRequest`
(src/core/SmartFetch.ts lines 185-250): invoke the transport (its
rejection is the caught raw error), validate the status (failure throws
a `SmartFetchError` with code `HTTP_<status>`), apply the response
transform and schema validation (failure throws a `ValidationError`),
build the envelope tagged with the current retry count, and write it to
the cache.  `transformRequest` only shapes the body handed to the
transport oracle, so it does not appear.  `idx` is the index of this
transport invocation. -/
def runAttempt (env : Env) (config : RequestConfig) (cacheKey : String)
    (retryCount : Nat) (idx : Nat) (cache : CacheManagerState) :
    Except Caught SmartFetchResponse × CacheManagerState :=
  match env.transport idx with
  | .raw name msg => (.error (.raw name msg), cache)
  | .ok status statusText headers payload =>
    if env.validateStatus status then
      match validatedPayload config payload with
      | .error _ =>
        (.error (.sfe (.validationErr "Response validation failed" config)), cache)
      | .ok d2 =>
        let resp : SmartFetchResponse :=
          { data := d2, status := status, statusText := statusText,
            headers := headers, config := config, retryCount := some retryCount }
        (.ok resp, cacheResponse config cacheKey resp env.now cache)
    else
      (.error (.sfe (.smartFetchErr ("Request failed with status " ++ toString status)
        config (some ("HTTP_" ++ toString status)) Option.none)), cache)

/-- Wrapping at the end of the `catch` block (src/core/SmartFetch.ts
lines 273-281): a non-`SmartFetchError` is wrapped into a
`NetworkError` with its message; a `SmartFetchError` is rethrown. -/
def wrapCaught (config : RequestConfig) : Caught → SFError
  | .raw _ msg => .networkErr msg config
  | .sfe e => e

/-- Maximum retries the request's policy allows, used as the
termination measure of `executeRequest`. -/
def retryBudget (config : RequestConfig) : Nat :=
  match getRetryConfig config with
  | some rc => rc.maxRetries
  | Option.none => 0

/-- `SmartFetch.executeRequest` (src/core/SmartFetch.ts lines 177-283):
run one attempt; on success return the envelope.  On a caught error:
an `AbortError`-named error becomes an `AbortError` and a message
containing `timeout` becomes a `TimeoutError`, both before any retry
evaluation; otherwise, when a retry policy exists and `shouldRetry`
accepts, recurse with the counter incremented (the backoff sleep has no
observable effect in this model); otherwise wrap and rethrow. -/
def executeRequest (env : Env) (config : RequestConfig) (cacheKey : String)
    (retryCount : Nat) (st : ExecState) :
    Except SFError SmartFetchResponse × ExecState :=
  let att := runAttempt env config cacheKey retryCount st.fetchCount st.cache
  let st' : ExecState := ⟨st.fetchCount + 1, att.2⟩
  match att.1 with
  | .ok r => (.ok r, st')
  | .error caught =>
    if caught.nameOf = "AbortError" then (.error (.abortErr "Request aborted" config), st')
    else if containsSub "timeout".toList caught.msgOf.toList then
      (.error (.timeoutErr "Request timeout" config), st')
    else
      match h : getRetryConfig config with
      | some rc =>
        if hr : shouldRetry caught.shape retryCount rc = true then
          executeRequest env config cacheKey (retryCount + 1) st'
        else (.error (wrapCaught config caught), st')
      | Option.none => (.error (wrapCaught config caught), st')
termination_by retryBudget config + 1 - retryCount
decreasing_by
  have hlt : retryCount < rc.maxRetries := by
    by_contra hge
    have hge' : retryCount ≥ rc.maxRetries := Nat.le_of_not_lt hge
    unfold shouldRetry at hr
    rw [if_pos hge'] at hr
    exact Bool.false_ne_true hr
  have hb : retryBudget config = rc.maxRetries := by
    simp [retryBudget, h]
  omega

/-- `processedConfig.deduplicate !== false` (src/core/SmartFetch.ts
lines 111, 134, 153): deduplication is opt-out. -/
def dedupEnabled (config : RequestConfig) : Bool :=
  config.deduplicate ≠ some false

/-- The tail of `SmartFetch.request` after `requestPromise` settles
(src/core/SmartFetch.ts lines 138-174), with no response interceptors
and no middleware registered (the constructor default), so the post and
error hook chains are identity and cannot themselves throw.  On
success the pending-request entry is deleted (lines 152-155); the
`catch` block (lines 158-173) runs the error hooks and rethrows
without touching the pending-request table.  The table maps
fingerprints to promise identities (modelled as `Nat`). -/
def requestSettle (config : RequestConfig) (cacheKey : String)
    (settled : Except SFError SmartFetchResponse)
    (pending : List (String × Nat)) :
    Except SFError SmartFetchResponse × List (String × Nat) :=
  match settled with
  | .ok r => (.ok r, if dedupEnabled config then mapErase cacheKey pending else pending)
  | .error e => (.error e, pending)

/-!
Cooperative-interleaving model of concurrent identical requests.

`SmartFetch.request` (src/core/SmartFetch.ts lines 75-157) is an async
function; every `await` yields to the event loop even when the awaited
promise is already resolved.  For a request with no middleware, no
interceptors, mock mode off, no cache policy (cache miss), dedup
enabled (the default), no rate limit and the caller online, one call
runs these atomic segments, separated by suspension points:

1. `start`      — run up to `await this.middlewareManager.executePre`
                  (line 83) and suspend;
2. `afterPre`   — interceptor loop (none), mock check, fingerprint,
                  run up to `await this.checkCache` (line 104), suspend;
3. `afterCache` — cache miss; read the pending-request table
                  (line 112): if an entry exists for the fingerprint,
                  return the shared promise (`joined`); otherwise run up
                  to `await this.checkRateLimit` (line 120), suspend;
4. `afterRate`  — offline check (online); call `executeRequest`
                  (line 131), which synchronously invokes the transport
                  (`fetch`, line 208) before its first await — one
                  exchange starts; register the promise in the table
                  (line 135); suspend awaiting the result (`launched`).

The pending-table read (segment 3) and write (segment 4) are separated
by the `checkRateLimit` suspension point.
-/

/-- Segment counter of one `request` call, as described above. -/
inductive TaskPC where
  | start | afterPre | afterCache | afterRate | joined | launched
deriving DecidableEq, Repr

/-- State of two concurrent identical requests (same fingerprint):
each task's segment counter, whether the pending-request table holds an
entry for the fingerprint, and how many transport exchanges have been
started for it. -/
structure DedupSys where
  taskA : TaskPC
  taskB : TaskPC
  pending : Bool
  exchanges : Nat
deriving DecidableEq, Repr

/-- Run one segment of a task: the returned triple is the new segment
counter, the new pending-table state and the number of transport
exchanges started (0 or 1).  Terminal segments are no-ops. -/
def stepPC (pc : TaskPC) (pending : Bool) : TaskPC × Bool × Nat :=
  match pc with
  | .start => (.afterPre, pending, 0)
  | .afterPre => (.afterCache, pending, 0)
  | .afterCache => if pending then (.joined, pending, 0) else (.afterRate, pending, 0)
  | .afterRate => (.launched, true, 1)
  | .joined => (.joined, pending, 0)
  | .launched => (.launched, pending, 0)

/-- Advance task B (`pickB = true`) or task A by one segment. -/
def stepTask (s : DedupSys) (pickB : Bool) : DedupSys :=
  if pickB then
    let r := stepPC s.taskB s.pending
    { s with taskB := r.1, pending := r.2.1, exchanges := s.exchanges + r.2.2 }
  else
    let r := stepPC s.taskA s.pending
    { s with taskA := r.1, pending := r.2.1, exchanges := s.exchanges + r.2.2 }

/-- Run a schedule (a list of which-task choices). -/
def runSched (s : DedupSys) (sched : List Bool) : DedupSys :=
  sched.foldl stepTask s

/-- Both tasks created in the same tick, nothing yet run. -/
def dedupInit : DedupSys := ⟨.start, .start, false, 0⟩

/-- The microtask order of `Promise.all([request(x), request(x)])`:
both calls start in the same tick, and resolved-promise continuations
run in FIFO order, so the two tasks alternate segments. -/
def roundRobin : List Bool := [false, true, false, true, false, true, false, true]

/-- A staggered schedule: task A runs to `launched` before task B
starts. -/
def staggered : List Bool := [false, false, false, false, true, true, true, true]

/-- Rate limiter bucket, from `src/core/SmartFetch.ts` line 41:
`{ tokens, lastRefill }` per endpoint key.  Tokens are `Int` because JS
arithmetic would go negative for `maxRequests = 0`. -/
structure Bucket where
  tokens : Int
  lastRefill : Nat
deriving DecidableEq, Repr

/-- Outcome of the rate-limit check for one caller: proceed after
waiting `waited` ms (0 when a token was available), or fail with a
`RateLimitError` carrying the computed wait time. -/
inductive RLResult where
  | proceed (waited : Nat)
  | rejected (waitTime : Nat)
deriving DecidableEq, Repr

/-- `SmartFetch.checkRateLimit` (src/core/SmartFetch.ts lines 376-418)
for one endpoint key: create the bucket full on first use; add
`⌊elapsed/per⌋ × maxRequests` tokens capped at `maxRequests`, moving
`lastRefill` only when at least one interval elapsed; with a token,
consume one and proceed; without, either sleep out the remainder of the
interval, reset to a full bucket at the wake-up time and consume one
(queueing mode), or throw (rejecting mode, bucket kept as refilled).
The idealized sleep wakes exactly `waitTime` ms later. -/
def checkRateLimit (cfg : RateLimitConfig) (now : Nat) (b0 : Option Bucket) :
    RLResult × Bucket :=
  let limiter := b0.getD ⟨(cfg.maxRequests : Int), now⟩
  let timePassed := now - limiter.lastRefill
  let refills := timePassed / cfg.perMilliseconds
  let limiter := if refills > 0 then
      (⟨min (cfg.maxRequests : Int) (limiter.tokens + (refills : Int) * (cfg.maxRequests : Int)), now⟩ : Bucket)
    else limiter
  if limiter.tokens < 1 then
    let waitTime := cfg.perMilliseconds - (now - limiter.lastRefill)
    if cfg.queueRequests.getD false then
      (.proceed waitTime, ⟨(cfg.maxRequests : Int) - 1, now + waitTime⟩)
    else
      (.rejected waitTime, limiter)
  else
    (.proceed 0, ⟨limiter.tokens - 1, limiter.lastRefill⟩)

/-- Run a sequence of rate-limit checks for one endpoint key at the
given times, threading the bucket. -/
def processTimes (cfg : RateLimitConfig) : List Nat → Option Bucket → List RLResult × Option Bucket
  | [], b => ([], b)
  | t :: ts, b =>
    let rb := checkRateLimit cfg t b
    let rest := processTimes cfg ts (some rb.2)
    (rb.1 :: rest.1, rest.2)

/-- Offline queue entry, from `src/types/index.ts`
(`OfflineQueueEntry`). -/
structure OfflineQueueEntry where
  id : String
  config : RequestConfig
  timestamp : Nat
  retryCount : Nat

/-- `OfflineQueue.dequeue` (src/unnamed/part_007 lines 61-64): delete
the entry with the given id from the persistent store. -/
def dequeueEntry (id : String) (q : List OfflineQueueEntry) : List OfflineQueueEntry :=
  q.filter (fun e => e.id ≠ id)

/-- `OfflineQueue.processQueue` (src/unnamed/part_007 lines 86-118),
its effect on the queue when a drain actually runs.  For each entry of
the `getAll()` snapshot the `try` block calls `notifyListeners()` and
then `dequeue(entry.id)`.  `notifyListeners` invokes the registered
`SmartFetch` callback, which launches the replay detached (the promise
of `processOfflineQueue` is discarded by `Set.forEach`), so the replay
outcome can never throw into this loop, and the store delete succeeds;
the `catch` branch that would increment `retryCount`, re-persist, or
drop the entry after more than 3 failures is unreachable.  The
resulting queue is therefore independent of every replay outcome. -/
def processQueue (isProcessing : Bool) (online : Bool)
    (queue : List OfflineQueueEntry) : List OfflineQueueEntry :=
  if isProcessing || !online then queue
  else
    let entries := queue
    entries.foldl (fun q e => dequeueEntry e.id q) queue

/-- Modelled from the spec (§4.6, §8): one drain cycle replays each
entry and removes it **only** on successful replay, or drops it when
the incremented retry counter exceeds 3; otherwise it is re-persisted
with the counter incremented.  This is the behaviour the source's
`processQueue` does not implement (the spec's §9 flags it as a
correctness gap). -/
def specDrain (replayOk : OfflineQueueEntry → Bool)
    (queue : List OfflineQueueEntry) : List OfflineQueueEntry :=
  queue.filterMap (fun e =>
    if replayOk e then Option.none
    else if e.retryCount + 1 > 3 then Option.none
    else some { e with retryCount := e.retryCount + 1 })

/-- Modelled from the spec (§4.1, "non-idempotent methods"): the
idempotent HTTP methods of RFC 7231 §4.2.2.  Used only to compare the
spec's wording with the source's `method !== 'GET'` test. -/
def isIdempotentMethod : HttpMethod → Bool
  | .GET | .HEAD | .OPTIONS | .PUT | .DELETE => true
  | .POST | .PATCH => false

/-- The data `generateCacheKey` actually depends on: method
(defaulted), url, params, and — for methods other than `GET` — the
body. -/
def fingerprintInputs (c : RequestConfig) :
    HttpMethod × String × Option (List (String × String)) × Option String :=
  let m := c.method.getD .GET
  (m, c.url, c.params, if m = .GET then Option.none else c.body)

def cfgNetDefault : RequestConfig :=
  { url := "/api/test", retry := .conf { maxRetries := 2, delay := 10 } }

def cfgNetCustom : RequestConfig :=
  { url := "/api/test",
    retry := .conf { maxRetries := 2, delay := 10, retryCondition := some (fun _ => true) } }

def envNetFail : Env :=
  { transport := fun _ => .raw "Error" "Network error",
    validateStatus := fun s => 200 ≤ s && s < 300, now := 0 }

def cfgVal : RequestConfig :=
  { url := "/v",
    retry := .conf { maxRetries := 1, delay := 1, retryCondition := some (fun _ => true) },
    validateResponse := some (fun s => if s = "bad" then .error "invalid" else .ok s) }

def envVal : Env :=
  { transport := fun i => if i = 0 then .ok 200 "OK" [] "bad" else .ok 200 "OK" [] "good",
    validateStatus := fun s => 200 ≤ s && s < 300, now := 0 }

def envAbort : Env :=
  { transport := fun _ => .raw "AbortError" "The operation was aborted",
    validateStatus := fun s => 200 ≤ s && s < 300, now := 0 }

def cfgAbort : RequestConfig :=
  { url := "/a",
    retry := .conf { maxRetries := 5, delay := 1, retryCondition := some (fun _ => true) } }

def envBadPayload : Env :=
  { transport := fun _ => .ok 200 "OK" [] "bad",
    validateStatus := fun s => 200 ≤ s && s < 300, now := 0 }

def cfgValDefault : RequestConfig :=
  { url := "/v", retry := .conf { maxRetries := 3, delay := 1 },
    validateResponse := some (fun s => if s = "bad" then .error "invalid" else .ok s) }

def cfgFailCache : RequestConfig :=
  { url := "/c", cache := .conf { strategy := .memory, ttl := some 60000 } }

/-! Theorems -/

theorem shouldRetry_lt_max (shape : CaughtShape) (retryCount : Nat) (rc : RetryConfig)
    (h : shouldRetry shape retryCount rc = true) : retryCount < rc.maxRetries := by
  by_contra hge
  have hge' : retryCount ≥ rc.maxRetries := Nat.le_of_not_lt hge
  unfold shouldRetry at h
  rw [if_pos hge'] at h
  exact Bool.false_ne_true h

theorem memory_isExpired_false_of_early (e : CacheEntry) (t : Nat) (ht : e.ttl = some t)
    (h1 : 1 ≤ t) : MemoryCacheAdapter.isExpired (e.timestamp + t - 1) e = false := by
  unfold MemoryCacheAdapter.isExpired
  simp only [ht]
  have hne : ¬ t = 0 := by omega
  rw [if_neg hne]
  simp only [decide_eq_false_iff_not]
  omega

theorem memory_isExpired_true_of_late (e : CacheEntry) (t : Nat) (ht : e.ttl = some t)
    (h1 : 1 ≤ t) : MemoryCacheAdapter.isExpired (e.timestamp + t + 1) e = true := by
  unfold MemoryCacheAdapter.isExpired
  simp only [ht]
  have hne : ¬ t = 0 := by omega
  rw [if_neg hne]
  simp only [decide_eq_true_eq]
  omega

/-- C3 (counterexample): an entry stored with `ttl = 0` never expires,
because `!entry.ttl` is true for a stored zero: with `t = 0`, a read at
`storedAt + t + 1` returns the entry and deletes nothing, where the
claim promises absent-and-deleted for every entry with a ttl. -/
theorem cache_ttl_zero_never_expires :
    MemoryCacheAdapter.get (100 + 0 + 1) "k" [("k", ⟨"payload", 100, some 0, "k"⟩)] =
      (some ⟨"payload", 100, some 0, "k"⟩, [("k", ⟨"payload", 100, some 0, "k"⟩)]) := by
  decide

/-- C3 (amended): for every cache entry with ttl `t ≥ 1`, a read at
`storedAt + t - 1` returns the entry and leaves the store unchanged,
and a read at `storedAt + t + 1` returns absent and deletes the entry
from the backend on that read (lazy expiry). -/
theorem cache_ttl_boundary_reads (t : Nat) (ht1 : 1 ≤ t) (key : String)
    (store : List (String × CacheEntry)) (e : CacheEntry)
    (hl : store.lookup key = some e) (httl : e.ttl = some t) :
    MemoryCacheAdapter.get (e.timestamp + t - 1) key store = (some e, store) ∧
    MemoryCacheAdapter.get (e.timestamp + t + 1) key store = (none, mapErase key store) := by
  constructor
  · unfold MemoryCacheAdapter.get
    simp only [hl, memory_isExpired_false_of_early e t httl ht1]
    simp
  · unfold MemoryCacheAdapter.get
    simp only [hl, memory_isExpired_true_of_late e t httl ht1]
    simp

/-- Witness for the amended C3 theorem at `t = 5`. -/
theorem cache_ttl_boundary_reads_witness :
    MemoryCacheAdapter.get 4 "k" [("k", ⟨"d", 0, some 5, "k"⟩)] =
      (some ⟨"d", 0, some 5, "k"⟩, [("k", ⟨"d", 0, some 5, "k"⟩)]) ∧
    MemoryCacheAdapter.get 6 "k" [("k", ⟨"d", 0, some 5, "k"⟩)] =
      (none, mapErase "k" [("k", ⟨"d", 0, some 5, "k"⟩)]) :=
  cache_ttl_boundary_reads 5 (by decide) "k" _ ⟨"d", 0, some 5, "k"⟩ (by decide) rfl

/-- C10: for an entry whose TTL (≥ 1) has elapsed, `has` still answers
true — it never consults the TTL — while the `get` on the same key
returns absent and deletes the entry, for both the memory and the
browser key-value adapter. -/
theorem has_get_disagree_on_expired (now : Nat) (key : String)
    (mem : List (String × CacheEntry)) (ls : LocalStorageCacheAdapter.Store)
    (e1 e2 : CacheEntry) (t1 t2 : Nat)
    (hm : mem.lookup key = some e1) (ht1 : e1.ttl = some t1) (hp1 : 1 ≤ t1)
    (hx1 : now - e1.timestamp > t1)
    (hls : ls.lookup (lsKey key) = some e2) (ht2 : e2.ttl = some t2) (hp2 : 1 ≤ t2)
    (hx2 : now - e2.timestamp > t2) :
    MemoryCacheAdapter.has key mem = true ∧
    MemoryCacheAdapter.get now key mem = (none, mapErase key mem) ∧
    LocalStorageCacheAdapter.has key ls = true ∧
    LocalStorageCacheAdapter.get now key ls = (none, mapErase (lsKey key) ls) := by
  have he1 : MemoryCacheAdapter.isExpired now e1 = true := by
    unfold MemoryCacheAdapter.isExpired
    simp only [ht1]
    rw [if_neg (by omega : ¬ t1 = 0)]
    simpa using hx1
  have he2 : LocalStorageCacheAdapter.isExpired now e2 = true := by
    unfold LocalStorageCacheAdapter.isExpired
    simp only [ht2]
    rw [if_neg (by omega : ¬ t2 = 0)]
    simpa using hx2
  refine ⟨?_, ?_, ?_, ?_⟩
  · unfold MemoryCacheAdapter.has
    simp [hm]
  · unfold MemoryCacheAdapter.get
    simp only [hm, he1]
    simp
  · unfold LocalStorageCacheAdapter.has
    simp [hls]
  · unfold LocalStorageCacheAdapter.get
    simp only [hls, he2]
    simp

/-- Witness for C10 at a concrete expired entry in both stores. -/
theorem has_get_disagree_on_expired_witness :
    MemoryCacheAdapter.has "k" [("k", ⟨"d", 0, some 3, "k"⟩)] = true ∧
    MemoryCacheAdapter.get 10 "k" [("k", ⟨"d", 0, some 3, "k"⟩)] =
      (none, mapErase "k" [("k", ⟨"d", 0, some 3, "k"⟩)]) ∧
    LocalStorageCacheAdapter.has "k" [(lsKey "k", ⟨"d", 0, some 3, "k"⟩)] = true ∧
    LocalStorageCacheAdapter.get 10 "k" [(lsKey "k", ⟨"d", 0, some 3, "k"⟩)] =
      (none, mapErase (lsKey "k") [(lsKey "k", ⟨"d", 0, some 3, "k"⟩)]) :=
  has_get_disagree_on_expired 10 "k" _ _ ⟨"d", 0, some 3, "k"⟩ ⟨"d", 0, some 3, "k"⟩ 3 3
    (by decide) rfl (by decide) (by decide) (by decide) rfl (by decide) (by decide)

/-- C8 (counterexample).  Part 1: two requests that are
indistinguishable at the transport boundary — same built URL, method,
headers and body (one passes an empty `params` record, the other no
`params`; both build the URL `/x`) — produce different fingerprints.
Part 2: `PUT` is idempotent, yet the serialized body enters the
fingerprint (the source tests `method !== 'GET'`, not
non-idempotence). -/
theorem fingerprint_claim_counterexample :
    (buildURL Option.none "/x" (some []) = buildURL Option.none "/x" Option.none ∧
     generateCacheKey { url := "/x", params := some [] } ≠
       generateCacheKey { url := "/x" }) ∧
    (isIdempotentMethod .PUT = true ∧
     generateCacheKey { url := "/y", method := some .PUT, body := some "\"b1\"" } ≠
       generateCacheKey { url := "/y", method := some .PUT, body := some "\"b2\"" }) := by
  refine ⟨⟨?_, ?_⟩, ?_, ?_⟩ <;> decide

/-- C8 (amended): the fingerprint is a pure, deterministic function of
the request's method, url, serialized query parameters and — for all
methods other than `GET` — the serialized body: two requests agreeing
on those fields fingerprint identically.  (Transport-boundary
indistinguishability does not imply equal fingerprints, and the body is
included for idempotent non-GET methods; see the counterexample.) -/
theorem fingerprint_pure_function (c1 c2 : RequestConfig)
    (h : fingerprintInputs c1 = fingerprintInputs c2) :
    generateCacheKey c1 = generateCacheKey c2 := by
  unfold fingerprintInputs at h
  simp only [Prod.mk.injEq] at h
  obtain ⟨hm, hu, hp, hb⟩ := h
  unfold generateCacheKey
  rw [hm, hu, hp]
  by_cases hg : c2.method.getD .GET = .GET
  · cases hb1 : c1.body <;> cases hb2 : c2.body <;> simp [hg]
  · rw [if_neg (by rw [hm]; exact hg), if_neg hg] at hb
    rw [hb]

/-- Witness for the amended C8 theorem: a `POST` with the same url,
params and body but different headers and cache policy fingerprints
identically. -/
theorem fingerprint_pure_function_witness :
    generateCacheKey { url := "/z", method := some .POST, body := some "\"b\"",
                       headers := [("X-A", "1")] } =
    generateCacheKey { url := "/z", method := some .POST, body := some "\"b\"",
                       cache := .flag true } :=
  fingerprint_pure_function _ _ (by decide)

/-- C2 (code evaluated at the failing input): after `requestPromise`
rejects, the pending-request entry for the fingerprint is still in the
table — the `catch` path of `SmartFetch.request` never deletes it —
while the success path does delete it.  A later identical request
therefore finds and returns the already-rejected entry at the line-112
check. -/
theorem pending_entry_survives_failure :
    (requestSettle { url := "/x" } "GET|/x"
        (.error (.networkErr "boom" { url := "/x" })) [("GET|/x", 0)] =
      (.error (.networkErr "boom" { url := "/x" }), [("GET|/x", 0)])) ∧
    (requestSettle { url := "/x" } "GET|/x"
        (.ok { data := "d", status := 200, statusText := "OK", headers := [],
               config := { url := "/x" } }) [("GET|/x", 0)] =
      (.ok { data := "d", status := 200, statusText := "OK", headers := [],
             config := { url := "/x" } }, [])) := by
  constructor
  · rfl
  · simp [requestSettle, dedupEnabled, mapErase]

/-- C1 (code evaluated at the failing schedule): under the actual
microtask order of two identical requests issued in the same tick
(`Promise.all`), both tasks pass the pending-table check before either
registers, and two transport exchanges start — the claim demands
exactly one.  Under a staggered schedule the second caller joins the
first's pending entry and only one exchange starts, which is the
behaviour the repository's own deduplication test expects for the
simultaneous case as well. -/
theorem dedup_race_two_exchanges :
    runSched dedupInit roundRobin =
      { taskA := .launched, taskB := .launched, pending := true, exchanges := 2 } ∧
    runSched dedupInit staggered =
      { taskA := .launched, taskB := .joined, pending := true, exchanges := 1 } := by
  decide

/-- C9 (code evaluated at the failing input): a drain over a queue
holding one entry whose replay fails removes the entry anyway —
`processQueue` deletes each snapshot entry right after notifying
listeners, independent of the replay outcome — whereas the
spec-modelled drain re-persists it with `retryCount` incremented. -/
theorem drain_discards_failed_replay :
    processQueue false true [⟨"id1", { url := "/q" }, 0, 0⟩] = [] ∧
    specDrain (fun _ => false) [⟨"id1", { url := "/q" }, 0, 0⟩] =
      [⟨"id1", { url := "/q" }, 0, 1⟩] ∧
    ([] : List OfflineQueueEntry) ≠ [⟨"id1", { url := "/q" }, 0, 1⟩] := by
  refine ⟨rfl, rfl, ?_⟩
  intro h
  exact List.noConfusion h

/-- C4 (code evaluated at the failing input): with
`retry: {maxRetries: 2, delay: 10}` and a transport rejecting every
attempt with `Error('Network error')` (spec scenario C, and the
repository test expecting 3 fetch calls), the default `shouldRetry`
accepts only `NetworkError`/`TimeoutError` instances — but the raw
fetch failure is wrapped into a `NetworkError` only after the retry
decision — so the transport is invoked exactly once, not `k + 1 = 3`
times, and the surfaced error is the wrapped last failure (which has no
attempt-count field).  Second conjunct: with a custom `retryCondition`
accepting every error, the `k + 1` invocation count does hold. -/
theorem default_retry_starves :
    executeRequest envNetFail cfgNetDefault "GET|/api/test" 0 {} =
      (.error (.networkErr "Network error" cfgNetDefault), ⟨1, {}⟩) ∧
    executeRequest envNetFail cfgNetCustom "GET|/api/test" 0 {} =
      (.error (.networkErr "Network error" cfgNetCustom), ⟨3, {}⟩) := by
  constructor <;>
    simp [executeRequest, runAttempt, validatedPayload, transformedPayload, envNetFail,
      cfgNetDefault, cfgNetCustom, getRetryConfig, shouldRetry, shouldRetryBody,
      Caught.nameOf, Caught.msgOf, Caught.shape, CaughtShape.respStatus, containsSub,
      isPrefixList, wrapCaught]

/-- C5 (counterexample): a response-schema validation failure IS
retried when a retry configuration with a custom `retryCondition`
accepting it is present: attempt 0 passes status validation but fails
schema validation, the condition retries it, attempt 1 succeeds — two
transport invocations and a success with `retryCount = 1`, where the
claim demands the validation error propagate immediately with no
retry. -/
theorem validation_failure_retried_cex :
    executeRequest envVal cfgVal "k" 0 {} =
      (.ok { data := "good", status := 200, statusText := "OK", headers := [],
             config := cfgVal, retryCount := some 1 }, ⟨2, {}⟩) := by
  simp [executeRequest, runAttempt, validatedPayload, transformedPayload, envVal, cfgVal,
    getRetryConfig, shouldRetry, shouldRetryBody, Caught.nameOf, Caught.msgOf,
    Caught.shape, CaughtShape.respStatus, containsSub, isPrefixList, wrapCaught,
    cacheResponse, SFError.nameOf, SFError.msgOf, SFError.shape]

theorem abort_short_circuits (env : Env) (cfg : RequestConfig) (key : String)
    (n : Nat) (st : ExecState) (m : String)
    (h : env.transport st.fetchCount = .raw "AbortError" m) :
    executeRequest env cfg key n st =
      (.error (.abortErr "Request aborted" cfg), ⟨st.fetchCount + 1, st.cache⟩) := by
  rw [executeRequest]
  unfold runAttempt
  rw [h]
  simp [Caught.nameOf]

theorem validation_not_retried_default (env : Env) (cfg : RequestConfig) (key : String)
    (n : Nat) (st : ExecState) (rcfg : RetryConfig) (status : Nat)
    (stext : String) (hdrs : List (String × String)) (payload emsg : String)
    (v : String → Except String String)
    (hrc : getRetryConfig cfg = some rcfg)
    (hcond : rcfg.retryCondition = Option.none)
    (ht : env.transport st.fetchCount = .ok status stext hdrs payload)
    (hvs : env.validateStatus status = true)
    (htr : cfg.transformResponse = Option.none)
    (hv : cfg.validateResponse = some v)
    (hbad : v payload = .error emsg) :
    executeRequest env cfg key n st =
      (.error (.validationErr "Response validation failed" cfg),
       ⟨st.fetchCount + 1, st.cache⟩) := by
  have hbody : shouldRetryBody
      (CaughtShape.sfe .validationE "Response validation failed"
        (some "VALIDATION_ERROR") Option.none) rcfg = false := by
    unfold shouldRetryBody
    rw [hcond]
    cases hro : rcfg.retryOn <;> simp [CaughtShape.respStatus]
  have hsr : shouldRetry
      (CaughtShape.sfe .validationE "Response validation failed"
        (some "VALIDATION_ERROR") Option.none) n rcfg = false := by
    unfold shouldRetry
    split
    · rfl
    · exact hbody
  have hvp : validatedPayload cfg payload = .error emsg := by
    unfold validatedPayload transformedPayload
    rw [hv, htr]
    exact hbad
  rw [executeRequest]
  unfold runAttempt
  rw [ht]
  simp [hvs, hvp, Caught.nameOf, Caught.msgOf, Caught.shape,
    SFError.nameOf, SFError.msgOf, SFError.shape, containsSub, isPrefixList, wrapCaught]
  split
  next rc heq =>
    rw [heq] at hrc
    injection hrc with h2
    subst h2
    simp [hsr]
  next heq => rfl

/-- C5 (amended): an attempt that fails with an abort is never retried
— the `AbortError` is rethrown before any retry evaluation, whatever
the retry configuration — and a response-schema validation failure is
never retried and propagates immediately under every retry
configuration without a custom `retryCondition` (a custom predicate
that accepts the error does retry it; see the counterexample).  In both
cases exactly one transport invocation happens and the cache is
untouched. -/
theorem abort_and_validation_terminal (env : Env) (cfg : RequestConfig) (key : String)
    (n : Nat) (st : ExecState) :
    (∀ m, env.transport st.fetchCount = .raw "AbortError" m →
      executeRequest env cfg key n st =
        (.error (.abortErr "Request aborted" cfg), ⟨st.fetchCount + 1, st.cache⟩)) ∧
    (∀ (rcfg : RetryConfig) (status : Nat) (stext : String)
       (hdrs : List (String × String)) (payload emsg : String)
       (v : String → Except String String),
      getRetryConfig cfg = some rcfg → rcfg.retryCondition = Option.none →
      env.transport st.fetchCount = .ok status stext hdrs payload →
      env.validateStatus status = true → cfg.transformResponse = Option.none →
      cfg.validateResponse = some v → v payload = .error emsg →
      executeRequest env cfg key n st =
        (.error (.validationErr "Response validation failed" cfg),
         ⟨st.fetchCount + 1, st.cache⟩)) :=
  ⟨fun m h => abort_short_circuits env cfg key n st m h,
   fun rcfg status stext hdrs payload emsg v h1 h2 h3 h4 h5 h6 h7 =>
     validation_not_retried_default env cfg key n st rcfg status stext hdrs payload emsg v
       h1 h2 h3 h4 h5 h6 h7⟩

/-- Witness for the amended C5 theorem: a concrete aborted attempt
(with an always-retry custom predicate) and a concrete validation
failure (default predicate), each settling after one transport
invocation. -/
theorem abort_and_validation_terminal_witness :
    executeRequest envAbort cfgAbort "k" 0 {} =
      (.error (.abortErr "Request aborted" cfgAbort), ⟨1, {}⟩) ∧
    executeRequest envBadPayload cfgValDefault "k" 0 {} =
      (.error (.validationErr "Response validation failed" cfgValDefault), ⟨1, {}⟩) :=
  ⟨(abort_and_validation_terminal envAbort cfgAbort "k" 0 {}).1
      "The operation was aborted" rfl,
   (abort_and_validation_terminal envBadPayload cfgValDefault "k" 0 {}).2
      { maxRetries := 3, delay := 1 } 200 "OK" [] "bad" "invalid"
      (fun s => if s = "bad" then .error "invalid" else .ok s)
      rfl rfl rfl rfl rfl rfl rfl⟩

theorem runAttempt_error_snd (env : Env) (cfg : RequestConfig) (key : String)
    (n idx : Nat) (cache : CacheManagerState) (c : Caught)
    (h : (runAttempt env cfg key n idx cache).1 = .error c) :
    (runAttempt env cfg key n idx cache).2 = cache := by
  unfold runAttempt at h ⊢
  cases henv : env.transport idx with
  | raw name msg => simp [henv]
  | ok status stext hdrs payload =>
    simp only [henv] at h ⊢
    cases hvs : env.validateStatus status with
    | false => simp [hvs]
    | true =>
      simp only [hvs, if_true] at h ⊢
      cases hval : validatedPayload cfg payload with
      | error e => simp [hval]
      | ok d2 =>
        simp only [hval] at h
        simp at h

theorem runAttempt_ok_status (env : Env) (cfg : RequestConfig) (key : String)
    (n idx : Nat) (cache : CacheManagerState) (r : SmartFetchResponse)
    (h : (runAttempt env cfg key n idx cache).1 = .ok r) :
    env.validateStatus r.status = true := by
  unfold runAttempt at h
  cases henv : env.transport idx with
  | raw name msg => simp [henv] at h
  | ok status stext hdrs payload =>
    simp only [henv] at h
    cases hvs : env.validateStatus status with
    | false => simp [hvs] at h
    | true =>
      simp only [hvs, if_true] at h
      cases hval : validatedPayload cfg payload with
      | error e => simp [hval] at h
      | ok d2 =>
        simp only [hval, Except.ok.injEq] at h
        rw [← h]
        exact hvs

theorem exec_error_cache_aux (env : Env) (cfg : RequestConfig) (key : String) :
    ∀ (k n : Nat) (st : ExecState), retryBudget cfg + 1 - n = k →
    ∀ (e : SFError) (st' : ExecState),
      executeRequest env cfg key n st = (.error e, st') → st'.cache = st.cache := by
  intro k
  induction k using Nat.strong_induction_on with
  | _ k IH =>
    intro n st hk e st' h
    rw [executeRequest] at h
    cases hat : (runAttempt env cfg key n st.fetchCount st.cache).1 with
    | ok r =>
      simp only [hat] at h
      exact absurd h (by simp)
    | error caught =>
      have hc := runAttempt_error_snd env cfg key n st.fetchCount st.cache caught hat
      simp only [hat] at h
      by_cases hab : caught.nameOf = "AbortError"
      · rw [if_pos hab] at h
        have h2 := congrArg Prod.snd h
        simp only at h2
        rw [← h2]
        exact hc
      · rw [if_neg hab] at h
        by_cases hto : containsSub "timeout".toList caught.msgOf.toList = true
        · rw [if_pos hto] at h
          have h2 := congrArg Prod.snd h
          simp only at h2
          rw [← h2]
          exact hc
        · rw [if_neg hto] at h
          split at h
          next rc hrc =>
            split at h
            next hsr =>
              have hlt := shouldRetry_lt_max _ _ _ hsr
              have hbud : retryBudget cfg = rc.maxRetries := by
                simp [retryBudget, hrc]
              have hrec := IH (retryBudget cfg + 1 - (n + 1)) (by omega) (n + 1)
                ⟨st.fetchCount + 1, (runAttempt env cfg key n st.fetchCount st.cache).2⟩
                rfl e st' h
              simp only at hrec
              rw [hrec]
              exact hc
            next hsr =>
              have h2 := congrArg Prod.snd h
              simp only at h2
              rw [← h2]
              exact hc
          next hrc =>
            have h2 := congrArg Prod.snd h
            simp only at h2
            rw [← h2]
            exact hc

theorem exec_ok_status_aux (env : Env) (cfg : RequestConfig) (key : String) :
    ∀ (k n : Nat) (st : ExecState), retryBudget cfg + 1 - n = k →
    ∀ (r : SmartFetchResponse) (st' : ExecState),
      executeRequest env cfg key n st = (.ok r, st') →
      env.validateStatus r.status = true := by
  intro k
  induction k using Nat.strong_induction_on with
  | _ k IH =>
    intro n st hk r st' h
    rw [executeRequest] at h
    cases hat : (runAttempt env cfg key n st.fetchCount st.cache).1 with
    | ok r0 =>
      simp only [hat] at h
      have h1 := congrArg Prod.fst h
      simp only [Except.ok.injEq] at h1
      rw [← h1]
      exact runAttempt_ok_status env cfg key n st.fetchCount st.cache r0 hat
    | error caught =>
      simp only [hat] at h
      by_cases hab : caught.nameOf = "AbortError"
      · rw [if_pos hab] at h
        exact absurd h (by simp)
      · rw [if_neg hab] at h
        by_cases hto : containsSub "timeout".toList caught.msgOf.toList = true
        · rw [if_pos hto] at h
          exact absurd h (by simp)
        · rw [if_neg hto] at h
          split at h
          next rc hrc =>
            split at h
            next hsr =>
              have hlt := shouldRetry_lt_max _ _ _ hsr
              have hbud : retryBudget cfg = rc.maxRetries := by
                simp [retryBudget, hrc]
              exact IH (retryBudget cfg + 1 - (n + 1)) (by omega) (n + 1)
                ⟨st.fetchCount + 1, (runAttempt env cfg key n st.fetchCount st.cache).2⟩
                rfl r st' h
            next hsr =>
              exact absurd h (by simp)
          next hrc =>
            exact absurd h (by simp)

theorem checkRateLimit_in_window (cfg : RateLimitConfig) (t t1 : Nat) (k : Int)
    (_hP : 1 ≤ cfg.perMilliseconds) (ht1 : t1 ≤ t)
    (htw : t < t1 + cfg.perMilliseconds) (hk : 1 ≤ k) :
    checkRateLimit cfg t (some ⟨k, t1⟩) = (.proceed 0, ⟨k - 1, t1⟩) := by
  unfold checkRateLimit
  have href : (t - t1) / cfg.perMilliseconds = 0 := Nat.div_eq_of_lt (by omega)
  simp only [Option.getD_some, href, gt_iff_lt, lt_self_iff_false, if_false]
  rw [if_neg (by omega)]

theorem checkRateLimit_exhausted (cfg : RateLimitConfig) (t t1 : Nat)
    (ht1 : t1 ≤ t) (htw : t < t1 + cfg.perMilliseconds) :
    checkRateLimit cfg t (some ⟨0, t1⟩) =
      (if cfg.queueRequests.getD false
       then (.proceed (cfg.perMilliseconds - (t - t1)),
             ⟨(cfg.maxRequests : Int) - 1, t + (cfg.perMilliseconds - (t - t1))⟩)
       else (.rejected (cfg.perMilliseconds - (t - t1)), ⟨0, t1⟩)) := by
  unfold checkRateLimit
  have href : (t - t1) / cfg.perMilliseconds = 0 := Nat.div_eq_of_lt (by omega)
  simp only [Option.getD_some, href, gt_iff_lt, lt_self_iff_false, if_false]
  rw [if_pos (by omega)]

theorem processTimes_full_tokens (cfg : RateLimitConfig) (t1 : Nat)
    (hP : 1 ≤ cfg.perMilliseconds) :
    ∀ (ts : List Nat) (k : Int),
      (∀ t ∈ ts, t1 ≤ t ∧ t < t1 + cfg.perMilliseconds) →
      (ts.length : Int) ≤ k →
      processTimes cfg ts (some ⟨k, t1⟩) =
        (List.replicate ts.length (.proceed 0), some ⟨k - ts.length, t1⟩) := by
  intro ts
  induction ts with
  | nil =>
    intro k _ _
    simp [processTimes]
  | cons t ts ih =>
    intro k hw hk
    have h1 := hw t (List.mem_cons_self t ts)
    have hk1 : 1 ≤ k := by
      have : (0 : Int) ≤ ts.length := by positivity
      simp only [List.length_cons] at hk
      push_cast at hk
      omega
    unfold processTimes
    rw [checkRateLimit_in_window cfg t t1 k hP h1.1 h1.2 hk1]
    dsimp only
    rw [ih (k - 1) (fun t' ht' => hw t' (List.mem_cons_of_mem t ht'))
      (by simp only [List.length_cons] at hk; push_cast at hk ⊢; omega)]
    have : k - 1 - (ts.length : Int) = k - ((ts.length : Nat) + 1 : Nat) := by
      push_cast
      omega
    rw [this]
    simp [List.replicate_succ]

theorem processTimes_cons (cfg : RateLimitConfig) (x : Nat) (xs : List Nat)
    (b : Option Bucket) :
    processTimes cfg (x :: xs) b =
      ((checkRateLimit cfg x b).1 ::
         (processTimes cfg xs (some (checkRateLimit cfg x b).2)).1,
       (processTimes cfg xs (some (checkRateLimit cfg x b).2)).2) := rfl

theorem processTimes_append (cfg : RateLimitConfig) (xs ys : List Nat) (b : Option Bucket) :
    processTimes cfg (xs ++ ys) b =
      ((processTimes cfg xs b).1 ++ (processTimes cfg ys (processTimes cfg xs b).2).1,
       (processTimes cfg ys (processTimes cfg xs b).2).2) := by
  induction xs generalizing b with
  | nil => simp [processTimes]
  | cons x xs ih =>
    simp only [List.cons_append, processTimes_cons, ih]

/-- C6: for a rate limit of `maxRequests = R` per `P` ms (`P ≥ 1`),
starting from a cold bucket, `R` requests all inside the window
`[t1, t1 + P)` opened by the first request each pass immediately, and
an `(R+1)`-th request at `tLast` inside the same window either proceeds
after suspending for the remainder `P - (tLast - t1)` of the interval
(queueing mode) or fails with a rate-limit error carrying that computed
wait time (rejecting mode). -/
theorem rate_limit_window (cfg : RateLimitConfig) (t1 : Nat) (rest : List Nat)
    (tLast : Nat) (hP : 1 ≤ cfg.perMilliseconds)
    (hlen : (t1 :: rest).length = cfg.maxRequests)
    (hw : ∀ t ∈ t1 :: rest, t1 ≤ t ∧ t < t1 + cfg.perMilliseconds)
    (hl1 : t1 ≤ tLast) (hlw : tLast < t1 + cfg.perMilliseconds) :
    (processTimes cfg ((t1 :: rest) ++ [tLast]) Option.none).1 =
      List.replicate cfg.maxRequests (.proceed 0) ++
        [if cfg.queueRequests.getD false
         then .proceed (cfg.perMilliseconds - (tLast - t1))
         else .rejected (cfg.perMilliseconds - (tLast - t1))] := by
  have hR1 : 1 ≤ cfg.maxRequests := by
    rw [← hlen]
    simp
  have hcold : checkRateLimit cfg t1 Option.none =
      (.proceed 0, ⟨(cfg.maxRequests : Int) - 1, t1⟩) := by
    have heq : checkRateLimit cfg t1 Option.none =
        checkRateLimit cfg t1 (some ⟨(cfg.maxRequests : Int), t1⟩) := rfl
    rw [heq]
    exact checkRateLimit_in_window cfg t1 t1 _ hP le_rfl (by omega)
      (by exact_mod_cast hR1)
  have hrest : processTimes cfg rest (some ⟨(cfg.maxRequests : Int) - 1, t1⟩) =
      (List.replicate rest.length (.proceed 0), some ⟨0, t1⟩) := by
    have hlen' : rest.length = cfg.maxRequests - 1 := by
      simp only [List.length_cons] at hlen
      omega
    have hz : (cfg.maxRequests : Int) - 1 - (rest.length : Int) = 0 := by
      rw [hlen']
      omega
    have hrun := processTimes_full_tokens cfg t1 hP rest ((cfg.maxRequests : Int) - 1)
      (fun t ht => hw t (List.mem_cons_of_mem t1 ht))
      (by rw [hlen']; omega)
    rw [hrun, hz]
  have hlast : checkRateLimit cfg tLast (some ⟨0, t1⟩) =
      (if cfg.queueRequests.getD false
       then (.proceed (cfg.perMilliseconds - (tLast - t1)),
             ⟨(cfg.maxRequests : Int) - 1, tLast + (cfg.perMilliseconds - (tLast - t1))⟩)
       else (.rejected (cfg.perMilliseconds - (tLast - t1)), ⟨0, t1⟩)) :=
    checkRateLimit_exhausted cfg tLast t1 hl1 hlw
  show (processTimes cfg (t1 :: (rest ++ [tLast])) Option.none).1 = _
  unfold processTimes
  dsimp only
  rw [hcold]
  dsimp only
  rw [processTimes_append]
  rw [hrest]
  dsimp only
  unfold processTimes
  dsimp only
  rw [hlast]
  have hrep : cfg.maxRequests = rest.length + 1 := by
    simp only [List.length_cons] at hlen
    omega
  rw [hrep, List.replicate_succ]
  cases hq : cfg.queueRequests.getD false <;> simp [hq, processTimes]

/-- Witness for C6: `R = 2` per 100ms, cold start at 0, requests at
0, 10, 20 — two proceed, the third is rejected with wait time
`100 - 20 = 80`. -/
theorem rate_limit_window_witness :
    (processTimes { maxRequests := 2, perMilliseconds := 100 } [0, 10, 20] Option.none).1 =
      [.proceed 0, .proceed 0, .rejected 80] := by
  have h := rate_limit_window { maxRequests := 2, perMilliseconds := 100 } 0 [10] 20
    (by decide) (by decide) (by decide) (by decide) (by decide)
  simpa using h

/-- C7: a failed attempt never writes the cache — at the single-attempt
level (`runAttempt`) and across the whole retry loop
(`executeRequest`) — and a cache write can only follow a response that
passed status validation: any successful result's status satisfies the
instance `validateStatus` predicate. -/
theorem failed_attempts_never_cached (env : Env) (cfg : RequestConfig) (key : String)
    (n : Nat) (st : ExecState) :
    (∀ c, (runAttempt env cfg key n st.fetchCount st.cache).1 = .error c →
      (runAttempt env cfg key n st.fetchCount st.cache).2 = st.cache) ∧
    (∀ e st', executeRequest env cfg key n st = (.error e, st') →
      st'.cache = st.cache) ∧
    (∀ r st', executeRequest env cfg key n st = (.ok r, st') →
      env.validateStatus r.status = true) :=
  ⟨fun c h => runAttempt_error_snd env cfg key n st.fetchCount st.cache c h,
   fun e st' h => exec_error_cache_aux env cfg key _ n st rfl e st' h,
   fun r st' h => exec_ok_status_aux env cfg key _ n st rfl r st' h⟩

/-- Witness for C7: a request with a memory-cache policy whose
transport fails leaves the cache exactly as it was. -/
theorem failed_attempts_never_cached_witness :
    executeRequest envNetFail cfgFailCache "k" 0 {} =
      (.error (.networkErr "Network error" cfgFailCache), ⟨1, {}⟩) ∧
    (⟨1, ({} : ExecState).cache⟩ : ExecState).cache = ({} : ExecState).cache := by
  have heq : executeRequest envNetFail cfgFailCache "k" 0 {} =
      (.error (.networkErr "Network error" cfgFailCache), ⟨1, {}⟩) := by
    simp [executeRequest, runAttempt, validatedPayload, transformedPayload, envNetFail,
      cfgFailCache, getRetryConfig, shouldRetry, shouldRetryBody, Caught.nameOf,
      Caught.msgOf, Caught.shape, CaughtShape.respStatus, containsSub, isPrefixList,
      wrapCaught]
  exact ⟨heq,
    (failed_attempts_never_cached envNetFail cfgFailCache "k" 0 {}).2.1
      (.networkErr "Network error" cfgFailCache) ⟨1, {}⟩ heq⟩
